import Mathlib

/-
Verification of the pairwise statistical significance evaluator of
`eval-report.ipynb`.

The notebook loads a per-(algorithm, user) metric table, fills missing
metric values with zero (`results = results.fillna(0)`), groups the table
by the categorical "algorithm" column (pandas iterates category groups in
sorted order of the identifiers, rows inside a group in table order), runs
`scipy.stats.friedmanchisquare(alg_vals[0], alg_vals[1], alg_vals[2],
alg_vals[3])`, and then runs, for every index pair in
`n_compare = list(combinations(list(range(4)), 2))`, the function
`wilcox_bonf`, which calls `scipy.stats.wilcoxon(data1, data2)`, computes
`new_alpha = 0.05 / len(n_compare)` and decides
"Metric is the same (fail to reject H0)" when `p > new_alpha` and
"Metric is different (reject H0)" otherwise.

Numbers are embedded as rationals.  The numeric cores of the two scipy
tests are delegated computations and appear as a parameter record
`StatLib`; the surrounding control flow — pair enumeration, thresholding,
decision strings, error propagation, and the documented degenerate-input
behaviour of `scipy.stats.wilcoxon` (ValueError on length mismatch and on
all-zero paired differences with the default zero_method "wilcox") — is
embedded concretely.  Python exceptions are embedded as `Except` errors.
-/

namespace EvalReport

/-- Python exceptions that can arise in the evaluation: an IndexError from
`alg_vals[i]`, and the two documented ValueError cases of
`scipy.stats.wilcoxon`. -/
inductive EvalError where
  | indexOutOfBounds
  | lengthMismatch
  | allZeroDifferences
deriving DecidableEq

/-- The numeric cores of the two delegated scipy tests: `friedman` receives
the list of sample vectors and returns (statistic, p-value);
`wilcoxonStat` receives the nonzero paired differences kept by
`scipy.stats.wilcoxon` and returns (statistic, p-value). -/
structure StatLib where
  friedman : List (List ℚ) → ℚ × ℚ
  wilcoxonStat : List ℚ → ℚ × ℚ

/-- `scipy.stats.wilcoxon(x, y)` with the default zero_method "wilcox":
raises ValueError when the samples have different lengths; forms the paired
differences, discards the zero differences, and raises ValueError when all
differences are zero; otherwise delegates the rank statistic and p-value. -/
def wilcoxon (lib : StatLib) (x y : List ℚ) : Except EvalError (ℚ × ℚ) :=
  if x.length ≠ y.length then .error .lengthMismatch
  else
    let d := (x.zip y).map fun pr => pr.1 - pr.2
    let dnz := d.filter fun v => decide (v ≠ 0)
    if dnz.isEmpty then .error .allZeroDifferences
    else .ok (lib.wilcoxonStat dnz)

/-- `itertools.combinations(xs, 2)`: every unordered pair exactly once, in
lexicographic order of positions. -/
def combinations2 {α : Type} : List α → List (α × α)
  | [] => []
  | x :: xs => (xs.map fun y => (x, y)) ++ combinations2 xs

/-- `n_compare = list(combinations(list(range(4)), 2))` — the module-level
pair list of the notebook, hardcoded to 4 algorithms. -/
def n_compare : List (Nat × Nat) := combinations2 (List.range 4)

/-- The literal decision string of the `p > new_alpha` branch. -/
def decisionSame : String := "Metric is the same (fail to reject H0)"

/-- The literal decision string of the other branch. -/
def decisionDiff : String := "Metric is different (reject H0)"

/-- The pandas Series returned by `wilcox_bonf`. -/
structure PairResult where
  pair : String × String
  statistics : ℚ
  p_value : ℚ
  decision : String
deriving DecidableEq

/-- `wilcox_bonf(data1, data2, alg_pair)` from the notebook: runs the
Wilcoxon test (an exception there escapes), computes
`new_alpha = alpha / len(n_compare)` and decides by `p > new_alpha`. -/
def wilcox_bonf (lib : StatLib) (nPairs : Nat) (data1 data2 : List ℚ)
    (alg_pair : String × String) : Except EvalError PairResult :=
  let alpha : ℚ := 1/20
  match wilcoxon lib data1 data2 with
  | .error e => .error e
  | .ok sp =>
    let new_alpha := alpha / (nPairs : ℚ)
    let decision := if sp.2 > new_alpha then decisionSame else decisionDiff
    .ok ⟨alg_pair, sp.1, sp.2, decision⟩

/-- Python list indexing `xs[i]`: IndexError when out of range. -/
def pyGet {α : Type} (xs : List α) (i : Nat) : Except EvalError α :=
  match xs[i]? with
  | some v => .ok v
  | none => .error .indexOutOfBounds

/-- One algorithm group of `results.groupby("algorithm")`: the identifier
and the metric column values of its rows, in table order. -/
structure AlgSample where
  name : String
  vals : List ℚ
deriving DecidableEq

/-- Everything the metric evaluation prints: the Friedman statistic and
p-value line, then one `PairResult` line per compared pair. -/
structure EvalOutput where
  friedmanStat : ℚ
  friedmanP : ℚ
  pairResults : List PairResult
deriving DecidableEq

/-- The post-hoc loop `for idx in n_compare: result = wilcox_bonf(
alg_vals[idx[0]], alg_vals[idx[1]], (alg_names[idx[0]], alg_names[idx[1]]))`.
An exception in any iteration escapes, aborting the loop. -/
def forPairs (lib : StatLib) (alg_vals : List (List ℚ))
    (alg_names : List String) : List (Nat × Nat) →
    Except EvalError (List PairResult)
  | [] => .ok []
  | idx :: rest =>
    match pyGet alg_vals idx.1 with
    | .error e => .error e
    | .ok d1 =>
    match pyGet alg_vals idx.2 with
    | .error e => .error e
    | .ok d2 =>
    match pyGet alg_names idx.1 with
    | .error e => .error e
    | .ok n1 =>
    match pyGet alg_names idx.2 with
    | .error e => .error e
    | .ok n2 =>
    match wilcox_bonf lib n_compare.length d1 d2 (n1, n2) with
    | .error e => .error e
    | .ok r =>
    match forPairs lib alg_vals alg_names rest with
    | .error e => .error e
    | .ok rs => .ok (r :: rs)

/-- One metric evaluation over the grouped samples, exactly as the two code
cells run it: `friedmanchisquare(alg_vals[0], alg_vals[1], alg_vals[2],
alg_vals[3])` followed — unconditionally, the Friedman p-value is printed
but never branched on — by the `wilcox_bonf` loop over `n_compare`. -/
def evalGrouped (lib : StatLib) (samples : List AlgSample) :
    Except EvalError EvalOutput :=
  let alg_vals := samples.map AlgSample.vals
  let alg_names := samples.map AlgSample.name
  match pyGet alg_vals 0 with
  | .error e => .error e
  | .ok v0 =>
  match pyGet alg_vals 1 with
  | .error e => .error e
  | .ok v1 =>
  match pyGet alg_vals 2 with
  | .error e => .error e
  | .ok v2 =>
  match pyGet alg_vals 3 with
  | .error e => .error e
  | .ok v3 =>
  let sp := lib.friedman [v0, v1, v2, v3]
  match forPairs lib alg_vals alg_names n_compare with
  | .error e => .error e
  | .ok prs => .ok ⟨sp.1, sp.2, prs⟩

/-- One row of the (already filled) metric table, restricted to the one
metric column the evaluation reads. -/
structure Row where
  algorithm : String
  user : Nat
  value : ℚ
deriving DecidableEq

/-- Lexicographic comparison of char sequences by code point, the order
pandas uses for category values. -/
def charsLt : List Char → List Char → Bool
  | [], [] => false
  | [], _ :: _ => true
  | _ :: _, [] => false
  | a :: as, b :: bs =>
    if a < b then true else if b < a then false else charsLt as bs

/-- `a ≤ b` on strings, by code points. -/
def strLe (a b : String) : Bool := !(charsLt b.data a.data)

/-- Insertion into a sorted list of identifiers. -/
def insertSorted (a : String) : List String → List String
  | [] => [a]
  | b :: bs => if strLe a b then a :: b :: bs else b :: insertSorted a bs

/-- Sorting of the algorithm identifiers, as pandas sorts category values. -/
def sortStrings : List String → List String
  | [] => []
  | a :: as => insertSorted a (sortStrings as)

/-- The group keys of `results.groupby("algorithm")`: the distinct
algorithm identifiers of the table, in sorted order. -/
def algNames (rows : List Row) : List String :=
  sortStrings ((rows.map Row.algorithm).eraseDups)

/-- `results.groupby("algorithm")` followed by taking the metric column of
each group as `alg_vals` and the key as `alg_names`: groups in sorted key
order, each group's values in table row order. -/
def groupByAlgorithm (rows : List Row) : List AlgSample :=
  (algNames rows).map fun a =>
    ⟨a, (rows.filter fun r => decide (r.algorithm = a)).map Row.value⟩

/-- The whole per-metric evaluation from a filled metric table. -/
def evalMetric (lib : StatLib) (rows : List Row) :
    Except EvalError EvalOutput :=
  evalGrouped lib (groupByAlgorithm rows)

/-- One row of the raw metric table produced with `include_missing=True`:
a missing metric value (no overlap between recommendations and ground
truth) is a NaN, embedded as `none`. -/
structure RawRow where
  algorithm : String
  user : Nat
  value : Option ℚ
deriving DecidableEq

/-- `results = results.fillna(0)`: every missing value becomes 0, every
present value is kept, rows and columns unchanged. -/
def fillna (rows : List RawRow) : List Row :=
  rows.map fun r => ⟨r.algorithm, r.user, r.value.getD 0⟩

/-- The full pipeline from the raw metric table: fill the missing values
with zero, then evaluate the metric. -/
def evalMetricRaw (lib : StatLib) (raw : List RawRow) :
    Except EvalError EvalOutput :=
  evalMetric lib (fillna raw)

/-! ### Concrete instantiations used in counterexamples and witnesses

The notebook's own run (shown in its stored cell outputs) has four
algorithms ALS, IALS, II, UU with two observations per algorithm here kept
small; the statistic stubs below stand for the delegated scipy numeric
cores at particular data sets: `libS` models a run whose Friedman p-value
is significant (1/100), `libNS` one whose Friedman p-value is 2/5 = 0.4
(not significant), `libB` one whose Wilcoxon p-values sit exactly on the
Bonferroni threshold 1/120. -/

/-- Delegated statistics stub: significant omnibus p = 1/100, every
Wilcoxon call returns statistic = number of nonzero differences and
p = 1/200. -/
def libS : StatLib := ⟨fun _ => (100, 1/100), fun d => ((d.length : ℚ), 1/200)⟩

/-- Delegated statistics stub with non-significant omnibus p = 2/5. -/
def libNS : StatLib := ⟨fun _ => (100, 2/5), fun d => ((d.length : ℚ), 1/200)⟩

/-- Delegated statistics stub whose Wilcoxon p-value is exactly the
Bonferroni-adjusted threshold 1/120 = 0.05/6. -/
def libB : StatLib := ⟨fun _ => (100, 1/100), fun d => ((d.length : ℚ), 1/120)⟩

/-- A metric table with the four algorithms of the notebook, two users,
and pairwise-distinct sample vectors. -/
def rows4 : List Row :=
  [⟨"ALS", 1, 1⟩, ⟨"ALS", 2, 2⟩, ⟨"IALS", 1, 2⟩, ⟨"IALS", 2, 4⟩,
   ⟨"II", 1, 3⟩, ⟨"II", 2, 6⟩, ⟨"UU", 1, 4⟩, ⟨"UU", 2, 8⟩]

/-- `rows4` with a fifth algorithm group appended. -/
def rows5 : List Row :=
  rows4 ++ [⟨"ZZ", 1, 10⟩, ⟨"ZZ", 2, 20⟩]

/-- A metric table in which the first two algorithm groups (ALS and IALS)
have identical sample vectors, so all their paired differences are zero. -/
def rows2z : List Row :=
  [⟨"ALS", 1, 1⟩, ⟨"ALS", 2, 2⟩, ⟨"IALS", 1, 1⟩, ⟨"IALS", 2, 2⟩,
   ⟨"II", 1, 3⟩, ⟨"II", 2, 6⟩, ⟨"UU", 1, 4⟩, ⟨"UU", 2, 8⟩]

/-- A metric table whose IALS group has fewer observations than the ALS
group (mismatched sample lengths for the first compared pair). -/
def rows7m : List Row :=
  [⟨"ALS", 1, 1⟩, ⟨"ALS", 2, 2⟩, ⟨"IALS", 1, 2⟩,
   ⟨"II", 1, 3⟩, ⟨"II", 2, 6⟩, ⟨"UU", 1, 4⟩, ⟨"UU", 2, 8⟩]

/-- A metric table with a single algorithm group. -/
def rows1a : List Row := [⟨"ALS", 1, 1⟩]

/-- The full output of `evalMetric libNS rows4`: the Friedman line with
p = 2/5 and the six pairwise records. -/
def outNS : EvalOutput :=
  ⟨100, 2/5,
   [⟨("ALS", "IALS"), 2, 1/200, decisionDiff⟩, ⟨("ALS", "II"), 2, 1/200, decisionDiff⟩,
    ⟨("ALS", "UU"), 2, 1/200, decisionDiff⟩, ⟨("IALS", "II"), 2, 1/200, decisionDiff⟩,
    ⟨("IALS", "UU"), 2, 1/200, decisionDiff⟩, ⟨("II", "UU"), 2, 1/200, decisionDiff⟩]⟩

/-- The pair record produced by `wilcox_bonf libB` on `[1,2]` vs `[2,4]`:
its p-value 1/120 equals the adjusted threshold exactly. -/
def rB : PairResult := ⟨("A", "B"), 2, 1/120, decisionDiff⟩

/-- A raw metric table with one missing (NaN) value. -/
def raw9 : List RawRow := [⟨"ALS", 1, none⟩, ⟨"ALS", 2, some 5⟩]

/-- Decidable equality for `Except`, component-wise. -/
instance {ε α : Type} [DecidableEq ε] [DecidableEq α] :
    DecidableEq (Except ε α) := fun a b =>
  match a, b with
  | .error x, .error y =>
    if h : x = y then .isTrue (by rw [h])
    else .isFalse (fun hh => by cases hh; exact h rfl)
  | .error _, .ok _ => .isFalse (fun hh => by cases hh)
  | .ok _, .error _ => .isFalse (fun hh => by cases hh)
  | .ok x, .ok y =>
    if h : x = y then .isTrue (by rw [h])
    else .isFalse (fun hh => by cases hh; exact h rfl)

section proofs

attribute [local semireducible] Rat.mul Rat.add Rat.sub Rat.inv

/-- `xs[i]` succeeds exactly when the index is in range. -/
lemma pyGet_ok_iff {α : Type} {xs : List α} {i : Nat} {v : α} :
    pyGet xs i = .ok v ↔ xs[i]? = some v := by
  unfold pyGet
  cases h : xs[i]? <;> simp

/-- A successful Python indexing agrees with `List.getD`. -/
lemma pyGet_ok_getD {α : Type} {xs : List α} {i : Nat} {v : α} (d : α)
    (h : pyGet xs i = .ok v) : xs.getD i d = v := by
  rw [pyGet_ok_iff] at h
  simp [List.getD, h]

/-- The two decision strings differ. -/
lemma decision_strings_ne : decisionSame ≠ decisionDiff := by decide

/-- Inversion of a successful `wilcox_bonf` call: the record carries the
given pair and its decision is the `p > alpha/nPairs` branch applied to
its own p-value. -/
lemma wilcox_bonf_ok {lib : StatLib} {nPairs : Nat} {data1 data2 : List ℚ}
    {alg_pair : String × String} {r : PairResult}
    (h : wilcox_bonf lib nPairs data1 data2 alg_pair = .ok r) :
    r.pair = alg_pair ∧
    r.decision =
      (if r.p_value > (1/20 : ℚ) / (nPairs : ℚ) then decisionSame
       else decisionDiff) := by
  unfold wilcox_bonf at h
  cases hw : wilcoxon lib data1 data2 with
  | error e => rw [hw] at h; cases h
  | ok sp =>
    rw [hw] at h
    simp only [] at h
    cases h
    exact ⟨rfl, rfl⟩

/-- The decision of any successful `wilcox_bonf` call is "different"
exactly when its p-value is at most the adjusted threshold, and "same"
exactly when the p-value exceeds it. -/
lemma wilcox_bonf_decision_iff {lib : StatLib} {nPairs : Nat}
    {data1 data2 : List ℚ} {alg_pair : String × String} {r : PairResult}
    (h : wilcox_bonf lib nPairs data1 data2 alg_pair = .ok r) :
    (r.decision = decisionDiff ↔ r.p_value ≤ (1/20 : ℚ) / (nPairs : ℚ)) ∧
    (r.decision = decisionSame ↔ (1/20 : ℚ) / (nPairs : ℚ) < r.p_value) := by
  obtain ⟨-, hd⟩ := wilcox_bonf_ok h
  by_cases hp : r.p_value > (1/20 : ℚ) / (nPairs : ℚ)
  · rw [hd, if_pos hp]
    refine ⟨⟨fun hc => absurd hc decision_strings_ne,
             fun hle => absurd hp (not_lt.mpr hle)⟩, ?_⟩
    exact ⟨fun _ => hp, fun _ => rfl⟩
  · rw [hd, if_neg hp]
    refine ⟨⟨fun _ => not_lt.mp hp, fun _ => rfl⟩, ?_⟩
    exact ⟨fun hc => absurd hc.symm decision_strings_ne,
           fun hlt => absurd (not_lt.mp hp) (not_le.mpr hlt)⟩

/-- Inversion of a successful post-hoc loop: it yields one record per index
pair, the records carry the names at those indices, in loop order, and
every record comes from a successful `wilcox_bonf` call made with the
evaluation-wide pair count `n_compare.length`. -/
lemma forPairs_ok_spec (lib : StatLib) (alg_vals : List (List ℚ))
    (alg_names : List String) :
    ∀ (idxs : List (Nat × Nat)) (rs : List PairResult),
      forPairs lib alg_vals alg_names idxs = .ok rs →
      rs.length = idxs.length ∧
      rs.map PairResult.pair =
        idxs.map (fun idx =>
          (alg_names.getD idx.1 "", alg_names.getD idx.2 "")) ∧
      ∀ r ∈ rs, ∃ d1 d2 nm,
        wilcox_bonf lib n_compare.length d1 d2 nm = .ok r := by
  intro idxs
  induction idxs with
  | nil =>
    intro rs h
    simp only [forPairs] at h
    cases h
    simp
  | cons idx rest ih =>
    intro rs h
    simp only [forPairs] at h
    cases h1 : pyGet alg_vals idx.1 with
    | error e => simp only [h1] at h; exact Except.noConfusion h
    | ok d1 =>
    simp only [h1] at h
    cases h2 : pyGet alg_vals idx.2 with
    | error e => simp only [h2] at h; exact Except.noConfusion h
    | ok d2 =>
    simp only [h2] at h
    cases h3 : pyGet alg_names idx.1 with
    | error e => simp only [h3] at h; exact Except.noConfusion h
    | ok n1 =>
    simp only [h3] at h
    cases h4 : pyGet alg_names idx.2 with
    | error e => simp only [h4] at h; exact Except.noConfusion h
    | ok n2 =>
    simp only [h4] at h
    cases hw : wilcox_bonf lib n_compare.length d1 d2 (n1, n2) with
    | error e => simp only [hw] at h; exact Except.noConfusion h
    | ok r =>
    simp only [hw] at h
    cases hrest : forPairs lib alg_vals alg_names rest with
    | error e => simp only [hrest] at h; exact Except.noConfusion h
    | ok rs0 =>
    simp only [hrest] at h
    cases h
    obtain ⟨hlen, hmap, hmem⟩ := ih rs0 hrest
    refine ⟨by simp [hlen], ?_, ?_⟩
    · have hpr := (wilcox_bonf_ok hw).1
      have e3 := pyGet_ok_iff.mp h3
      have e4 := pyGet_ok_iff.mp h4
      simp [hpr, hmap, List.getD, e3, e4]
    · intro r0 hr0
      rcases List.mem_cons.mp hr0 with hr0 | hr0
      · exact ⟨d1, d2, (n1, n2), hr0 ▸ hw⟩
      · exact hmem r0 hr0

/-- Inversion of a successful metric evaluation: the post-hoc loop over
`n_compare` succeeded and produced exactly the pairwise records of the
output. -/
lemma evalGrouped_ok_spec {lib : StatLib} {samples : List AlgSample}
    {out : EvalOutput} (h : evalGrouped lib samples = .ok out) :
    forPairs lib (samples.map AlgSample.vals) (samples.map AlgSample.name)
      n_compare = .ok out.pairResults := by
  simp only [evalGrouped] at h
  cases h0 : pyGet (samples.map AlgSample.vals) 0 with
  | error e => rw [h0] at h; cases h
  | ok v0 =>
  rw [h0] at h
  cases h1 : pyGet (samples.map AlgSample.vals) 1 with
  | error e => rw [h1] at h; cases h
  | ok v1 =>
  rw [h1] at h
  cases h2 : pyGet (samples.map AlgSample.vals) 2 with
  | error e => rw [h2] at h; cases h
  | ok v2 =>
  rw [h2] at h
  cases h3 : pyGet (samples.map AlgSample.vals) 3 with
  | error e => rw [h3] at h; cases h
  | ok v3 =>
  rw [h3] at h
  cases hfp : forPairs lib (samples.map AlgSample.vals)
      (samples.map AlgSample.name) n_compare with
  | error e => rw [hfp] at h; cases h
  | ok prs =>
  rw [hfp] at h
  cases h
  rfl

/-- With fewer than four groups one of the four initial `alg_vals[i]`
accesses is out of range, so the evaluation is an IndexError. -/
lemma evalGrouped_short {lib : StatLib} {samples : List AlgSample}
    (h : samples.length < 4) :
    evalGrouped lib samples = .error .indexOutOfBounds := by
  rcases samples with _ | ⟨a, _ | ⟨b, _ | ⟨c, _ | ⟨d, t⟩⟩⟩⟩
  · rfl
  · rfl
  · rfl
  · rfl
  · simp at h
    omega

/-- Python indexing respects pointwise `getElem?` agreement. -/
lemma pyGet_congr {α : Type} {xs ys : List α} {i j : Nat}
    (h : xs[i]? = ys[j]?) : pyGet xs i = pyGet ys j := by
  unfold pyGet
  rw [h]

/-- The post-hoc loop reads its value and name lists only at the indices
occurring in the pair list. -/
lemma forPairs_congr (lib : StatLib) {av1 av2 : List (List ℚ)}
    {an1 an2 : List String} :
    ∀ idxs : List (Nat × Nat),
      (∀ idx ∈ idxs, av1[idx.1]? = av2[idx.1]? ∧ av1[idx.2]? = av2[idx.2]? ∧
        an1[idx.1]? = an2[idx.1]? ∧ an1[idx.2]? = an2[idx.2]?) →
      forPairs lib av1 an1 idxs = forPairs lib av2 an2 idxs := by
  intro idxs
  induction idxs with
  | nil => intro _; rfl
  | cons idx rest ih =>
    intro hc
    obtain ⟨e1, e2, e3, e4⟩ := hc idx (List.mem_cons_self idx rest)
    simp only [forPairs]
    rw [pyGet_congr e1, pyGet_congr e2, pyGet_congr e3, pyGet_congr e4,
        ih (fun p hp => hc p (List.mem_cons_of_mem idx hp))]

/-- Every index pair of `n_compare` is below 4 in both components. -/
lemma n_compare_indices_lt :
    ∀ idx ∈ n_compare, idx.1 < 4 ∧ idx.2 < 4 := by decide

/-- The whole evaluation reads its grouped input only at indices 0..3. -/
lemma evalGrouped_congr {lib : StatLib} {s1 s2 : List AlgSample}
    (hv : ∀ i, i < 4 →
      (s1.map AlgSample.vals)[i]? = (s2.map AlgSample.vals)[i]?)
    (hn : ∀ i, i < 4 →
      (s1.map AlgSample.name)[i]? = (s2.map AlgSample.name)[i]?) :
    evalGrouped lib s1 = evalGrouped lib s2 := by
  have hfp : forPairs lib (s1.map AlgSample.vals) (s1.map AlgSample.name)
      n_compare
      = forPairs lib (s2.map AlgSample.vals) (s2.map AlgSample.name)
        n_compare := by
    apply forPairs_congr
    intro idx hidx
    obtain ⟨hb1, hb2⟩ := n_compare_indices_lt idx hidx
    exact ⟨hv _ hb1, hv _ hb2, hn _ hb1, hn _ hb2⟩
  simp only [evalGrouped]
  rw [pyGet_congr (hv 0 (by norm_num)), pyGet_congr (hv 1 (by norm_num)),
      pyGet_congr (hv 2 (by norm_num)), pyGet_congr (hv 3 (by norm_num)), hfp]

/-- The evaluation reads only the first four groups: every group beyond the
fourth is ignored by both the omnibus call and the post-hoc loop. -/
lemma evalGrouped_take4 {lib : StatLib} (samples : List AlgSample) :
    evalGrouped lib samples = evalGrouped lib (samples.take 4) := by
  apply evalGrouped_congr <;> intro i hi <;>
    rw [List.map_take, List.getElem?_take, if_pos hi]

/-! ### Claim theorems -/

/-- C1: the post-hoc Wilcoxon tests are NOT conditioned on the omnibus
result.  On a run whose Friedman p-value is 2/5 = 0.4 ≥ 0.05 the code
still produces all six pairwise records — and its output contains no
"no significant difference" record at all (no such record exists anywhere
in the code).  The claim (pairwise tests iff omnibus p < 0.05, one
no-difference record otherwise) contradicts this, although the notebook's
own markdown states the conditioning. -/
theorem c1_posthoc_unconditional :
    evalMetric libNS rows4 = .ok outNS ∧
    (1/20 : ℚ) ≤ outNS.friedmanP ∧
    outNS.pairResults.length = 6 :=
  ⟨by decide, by decide, by decide⟩

/-- C2 counterexample: on a table whose first compared pair (ALS, IALS)
has all paired differences zero, the evaluation does not produce any
result entry with a distinct "undefined" outcome — it aborts with the
underlying ValueError of `scipy.stats.wilcoxon`, so there is no `.ok`
output at all. -/
theorem c2_counterexample :
    evalMetric libS rows2z = .error .allZeroDifferences := by decide

/-- C2 amended: for a pair whose matched differences are all zero, the
Wilcoxon call inside `wilcox_bonf` fails and that failure escapes
`wilcox_bonf` as the error itself; no result entry (in particular no
"undefined" entry) is produced. -/
theorem c2_degenerate_pair_errors (lib : StatLib) (nPairs : Nat)
    (data1 data2 : List ℚ) (alg_pair : String × String)
    (hlen : data1.length = data2.length) (hne : 0 < data1.length)
    (hzero : ∀ pr ∈ data1.zip data2, pr.1 = pr.2) :
    wilcox_bonf lib nPairs data1 data2 alg_pair
      = .error .allZeroDifferences := by
  have hw : wilcoxon lib data1 data2 = .error .allZeroDifferences := by
    have hd : (((data1.zip data2).map fun pr => pr.1 - pr.2).filter
        fun v => decide (v ≠ 0)) = [] := by
      rw [List.filter_eq_nil_iff]
      intro v hv
      rcases List.mem_map.mp hv with ⟨pr, hpr, rfl⟩
      simp [hzero pr hpr]
    unfold wilcoxon
    rw [if_neg (by simp [hlen])]
    simp only [hd]
    rfl
  simp only [wilcox_bonf, hw]

/-- C2 amended witness: a concrete degenerate pair. -/
theorem c2_degenerate_pair_errors_witness :
    wilcox_bonf libS 6 [1, 2] [1, 2] ("A", "B")
      = .error .allZeroDifferences :=
  c2_degenerate_pair_errors libS 6 [1, 2] [1, 2] ("A", "B") rfl
    (by decide) (by decide)

/-- C3 counterexample: with five algorithm groups and a significant
omnibus p-value (1/100 < 0.05) the evaluation still produces exactly 6
pairwise records, not C(5,2) = 10, and the fifth group is never
compared. -/
theorem c3_counterexample :
    (groupByAlgorithm rows5).length = 5 ∧
    ((evalMetric libS rows5).toOption.map fun o => o.friedmanP)
      = some (1/100) ∧
    (1/100 : ℚ) < 1/20 ∧
    ((evalMetric libS rows5).toOption.map fun o => o.pairResults.length)
      = some 6 ∧
    Nat.choose 5 2 = 10 :=
  ⟨by decide, by decide, by decide, by decide, by decide⟩

/-- C3 amended: whenever the evaluation succeeds it produces exactly
6 = C(4,2) pairwise records — independent of the omnibus p-value and of
the number of algorithm groups — one per index pair of `n_compare` in its
lexicographic order, labelled with the sorted group identifiers at those
indices. -/
theorem c3_always_six_pairs (lib : StatLib) (rows : List Row)
    (out : EvalOutput) (h : evalMetric lib rows = .ok out) :
    out.pairResults.length = 6 ∧
    out.pairResults.map PairResult.pair =
      n_compare.map (fun idx =>
        (((groupByAlgorithm rows).map AlgSample.name).getD idx.1 "",
         ((groupByAlgorithm rows).map AlgSample.name).getD idx.2 "")) := by
  have hfp := evalGrouped_ok_spec h
  obtain ⟨hlen, hmap, -⟩ :=
    forPairs_ok_spec lib _ _ n_compare out.pairResults hfp
  exact ⟨hlen.trans (by decide), hmap⟩

/-- C3 amended witness: for the notebook's algorithm set
{ALS, IALS, II, UU} the six pairs appear in exactly the documented
combination order. -/
theorem c3_always_six_pairs_witness :
    outNS.pairResults.length = 6 ∧
    outNS.pairResults.map PairResult.pair =
      [("ALS", "IALS"), ("ALS", "II"), ("ALS", "UU"),
       ("IALS", "II"), ("IALS", "UU"), ("II", "UU")] := by
  have h := c3_always_six_pairs libNS rows4 outNS (by decide)
  exact ⟨h.1, h.2.trans (by decide)⟩

/-- C4: for every successful pairwise comparison the decision is
"different" iff the raw p-value is at most the adjusted threshold
0.05 / len(n_compare), and "same" iff the p-value strictly exceeds it;
a p-value exactly equal to the threshold therefore yields "different". -/
theorem c4_decision_boundary (lib : StatLib) (data1 data2 : List ℚ)
    (alg_pair : String × String) (r : PairResult)
    (h : wilcox_bonf lib n_compare.length data1 data2 alg_pair = .ok r) :
    (r.decision = decisionDiff ↔
      r.p_value ≤ (1/20 : ℚ) / (n_compare.length : ℚ)) ∧
    (r.decision = decisionSame ↔
      (1/20 : ℚ) / (n_compare.length : ℚ) < r.p_value) :=
  wilcox_bonf_decision_iff h

/-- C4 witness: the boundary case — a p-value of exactly
1/120 = 0.05/6 yields the decision "different". -/
theorem c4_decision_boundary_witness :
    rB.p_value = (1/20 : ℚ) / (n_compare.length : ℚ) ∧
    rB.decision = decisionDiff ∧
    (rB.decision = decisionDiff ↔
      rB.p_value ≤ (1/20 : ℚ) / (n_compare.length : ℚ)) :=
  ⟨by decide, by decide,
   (c4_decision_boundary libB [1, 2] [2, 4] ("A", "B") rB (by decide)).1⟩

/-- C5: every pairwise decision of a successful evaluation is measured
against one and the same threshold, 0.05 divided by the total number of
pairs in `n_compare`, which equals 1/120 = 0.05/6. -/
theorem c5_threshold_uniform (lib : StatLib) (rows : List Row)
    (out : EvalOutput) (r : PairResult)
    (h : evalMetric lib rows = .ok out) (hr : r ∈ out.pairResults) :
    ((1/20 : ℚ) / (n_compare.length : ℚ) = 1/120) ∧
    (r.decision = decisionDiff ↔ r.p_value ≤ (1/20 : ℚ) / 6) := by
  have hfp := evalGrouped_ok_spec h
  obtain ⟨-, -, hmem⟩ :=
    forPairs_ok_spec lib _ _ n_compare out.pairResults hfp
  obtain ⟨d1, d2, nm, hwb⟩ := hmem r hr
  have hiff := (wilcox_bonf_decision_iff hwb).1
  have hth : (1/20 : ℚ) / (n_compare.length : ℚ) = 1/20 / 6 := by decide
  exact ⟨by decide, by rw [← hth]; exact hiff⟩

/-- C5 witness: the first pairwise record of a concrete run. -/
theorem c5_threshold_uniform_witness :
    ((1/20 : ℚ) / (n_compare.length : ℚ) = 1/120) ∧
    ((⟨("ALS", "IALS"), 2, 1/200, decisionDiff⟩ : PairResult).decision
        = decisionDiff ↔
      (⟨("ALS", "IALS"), 2, 1/200, decisionDiff⟩ : PairResult).p_value
        ≤ (1/20 : ℚ) / 6) :=
  c5_threshold_uniform libNS rows4 outNS
    ⟨("ALS", "IALS"), 2, 1/200, decisionDiff⟩ (by decide) (by decide)

/-- C6 counterexample: with a single algorithm group the evaluation does
not return a "not applicable" result — it aborts with an IndexError
(there is no group-count check anywhere in the code). -/
theorem c6_counterexample :
    evalMetric libS rows1a = .error .indexOutOfBounds := by decide

/-- C6 amended: with fewer than three algorithm groups the evaluation
aborts with an out-of-range indexing error before the omnibus test can
run; no "not applicable" result exists and no comparison is attempted. -/
theorem c6_short_input_aborts (lib : StatLib) (rows : List Row)
    (h : (groupByAlgorithm rows).length < 3) :
    evalMetric lib rows = .error .indexOutOfBounds :=
  evalGrouped_short (h.trans (by norm_num))

/-- C6 amended witness: a single supplied algorithm. -/
theorem c6_short_input_aborts_witness :
    evalMetric libS rows1a = .error .indexOutOfBounds :=
  c6_short_input_aborts libS rows1a (by decide)

/-- C7 counterexample: a mismatched-length pair does not become an
explicit result entry — the Wilcoxon ValueError escapes and the whole
metric evaluation returns it, producing no result entries at all. -/
theorem c7_counterexample :
    evalMetric libS rows7m = .error .lengthMismatch := by decide

/-- C7 amended: an error in any pairwise test escapes the post-hoc loop
as that very error: the loop's result is the error itself, no list of
result entries is produced, and the remaining pairs are never reached. -/
theorem c7_error_escapes (lib : StatLib) (alg_vals : List (List ℚ))
    (alg_names : List String) (idx : Nat × Nat) (rest : List (Nat × Nat))
    (d1 d2 : List ℚ) (n1 n2 : String) (e : EvalError)
    (h1 : pyGet alg_vals idx.1 = .ok d1)
    (h2 : pyGet alg_vals idx.2 = .ok d2)
    (h3 : pyGet alg_names idx.1 = .ok n1)
    (h4 : pyGet alg_names idx.2 = .ok n2)
    (hw : wilcox_bonf lib n_compare.length d1 d2 (n1, n2) = .error e) :
    forPairs lib alg_vals alg_names (idx :: rest) = .error e := by
  simp only [forPairs, h1, h2, h3, h4, hw]

/-- C7 amended witness: a degenerate first pair aborts the loop before
the second pair is evaluated. -/
theorem c7_error_escapes_witness :
    forPairs libS [[1, 2], [1, 2]] ["A", "B"] [(0, 1), (0, 1)]
      = .error .allZeroDifferences :=
  c7_error_escapes libS [[1, 2], [1, 2]] ["A", "B"] (0, 1) [(0, 1)]
    [1, 2] [1, 2] "A" "B" .allZeroDifferences
    (by decide) (by decide) (by decide) (by decide) (by decide)

/-- C8: the evaluation uses exactly the groups at indices 0..3 of the
sorted grouping — it is unchanged when every group beyond the fourth is
dropped (so extra groups are silently excluded), and with fewer than four
groups it aborts with an indexing error instead of producing any
result. -/
theorem c8_first_four_only (lib : StatLib) (rows : List Row) :
    (evalMetric lib rows
      = evalGrouped lib ((groupByAlgorithm rows).take 4)) ∧
    ((groupByAlgorithm rows).length < 4 →
      evalMetric lib rows = .error .indexOutOfBounds) :=
  ⟨evalGrouped_take4 (groupByAlgorithm rows),
   fun h => evalGrouped_short h⟩

/-- C8 witness: a five-group table evaluates exactly like its first four
groups, and a one-group table is an IndexError. -/
theorem c8_first_four_only_witness :
    evalMetric libS rows5
      = evalGrouped libS ((groupByAlgorithm rows5).take 4) ∧
    evalMetric libS rows1a = .error .indexOutOfBounds :=
  ⟨(c8_first_four_only libS rows5).1,
   (c8_first_four_only libS rows1a).2 (by decide)⟩

/-- C9: `fillna(0)` replaces every missing metric value by zero and keeps
every present value, position by position; consequently every sample value
the significance evaluator receives is either an actual metric value of
the raw table or the zero substituted for a missing one. -/
theorem c9_fillna_zero (raw : List RawRow) :
    ((fillna raw).map Row.value = raw.map fun r => r.value.getD 0) ∧
    (∀ s ∈ groupByAlgorithm (fillna raw), ∀ v ∈ s.vals,
      (∃ r ∈ raw, r.value = some v) ∨ v = 0) := by
  constructor
  · simp [fillna, Function.comp]
  · intro s hs v hv
    rcases List.mem_map.mp hs with ⟨a, -, rfl⟩
    rcases List.mem_map.mp hv with ⟨row, hrow, rfl⟩
    have hrows : row ∈ fillna raw := List.mem_of_mem_filter hrow
    rcases List.mem_map.mp hrows with ⟨rr, hrr, rfl⟩
    cases hvv : rr.value with
    | none => right; simp [hvv]
    | some w => left; exact ⟨rr, hrr, by simp [hvv]⟩

/-- C9 witness: a raw table with one missing value; the sample vector fed
onward contains the substituted zero and the kept actual value. -/
theorem c9_fillna_zero_witness :
    ((∃ r ∈ raw9, r.value = some 0) ∨ (0 : ℚ) = 0) ∧
    ((∃ r ∈ raw9, r.value = some 5) ∨ (5 : ℚ) = 0) :=
  ⟨(c9_fillna_zero raw9).2 ⟨"ALS", [0, 5]⟩ (by decide) 0 (by decide),
   (c9_fillna_zero raw9).2 ⟨"ALS", [0, 5]⟩ (by decide) 5 (by decide)⟩

/-- C10: the evaluation is a function of its input alone — identical raw
tables give identical ordered outputs (same pairs, same order, same
statistics, p-values and decisions), for any fixed delegated statistics
library. -/
theorem c10_deterministic (lib : StatLib) (raw1 raw2 : List RawRow)
    (h : raw1 = raw2) : evalMetricRaw lib raw1 = evalMetricRaw lib raw2 := by
  rw [h]

/-- C10 witness: a concrete run compared with itself. -/
theorem c10_deterministic_witness :
    evalMetricRaw libS raw9 = evalMetricRaw libS raw9 :=
  c10_deterministic libS raw9 raw9 rfl

end proofs

end EvalReport
